import Mathlib

/-!
Shallow embedding of the `rust-iso8211` catalog decoder
(`src/catalog.rs`, the data-parser source file, `src/error.rs`).

Modelling conventions:
* A Rust byte slice / byte reader is a `List Nat` (each element < 256 in
  practice; the decoder itself rejects non-UTF-8 byte sequences).
* Fallible Rust functions returning `Result<T>` become `Except ErrorKind T`.
  Only the outermost `ErrorKind` (what `Error::kind()` reports after the
  `context`/`with_context` wrapping) is tracked; `.context(k)` is modelled by
  replacing the visible kind with `k`.
* A function that can panic (slice-index out of bounds, integer underflow,
  `unwrap` on `Err`, `chunks(0)`) returns an `Option` of its result, with
  `none` standing for the panic/abort.
* `usize`/`i64` literal parsing models Rust `FromStr`, including overflow
  failure at the 64-bit bounds; `f64` parsing models the accepted grammar
  (sign, digits, fraction, exponent, `inf`/`infinity`/`nan`), which is what
  the error behaviour depends on.
-/

namespace Iso8211

/-- `RECORD_SEPARATOR` byte (0x1e) from `catalog.rs`. -/
def RECORD_SEPARATOR : Nat := 0x1e

/-- `UNIT_SEPARATOR` byte (0x1f) from `catalog.rs`. -/
def UNIT_SEPARATOR : Nat := 0x1f

/-- Is a byte a UTF-8 continuation byte (`0x80..=0xBF`)? -/
def utf8Cont (b : Nat) : Bool := 0x80 ≤ b && b ≤ 0xbf

/-- UTF-8 validation/decoding of a byte sequence, as performed by Rust's
`std::str::from_utf8` (rejects overlong encodings, surrogates and
code points above `0x10FFFF`). Returns `none` on invalid UTF-8. -/
def decodeUtf8Aux : List Nat → Option (List Char)
  | [] => some []
  | b :: bs =>
    if b < 0x80 then
      (decodeUtf8Aux bs).map (fun cs => Char.ofNat b :: cs)
    else if b < 0xc2 then none
    else if b ≤ 0xdf then
      match bs with
      | c1 :: bs2 =>
        if utf8Cont c1 then
          (decodeUtf8Aux bs2).map
            (fun cs => Char.ofNat ((b - 0xc0) * 64 + (c1 - 0x80)) :: cs)
        else none
      | [] => none
    else if b ≤ 0xef then
      match bs with
      | c1 :: c2 :: bs3 =>
        let lo1 : Nat := if b = 0xe0 then 0xa0 else 0x80
        let hi1 : Nat := if b = 0xed then 0x9f else 0xbf
        if lo1 ≤ c1 && c1 ≤ hi1 && utf8Cont c2 then
          (decodeUtf8Aux bs3).map
            (fun cs =>
              Char.ofNat ((b - 0xe0) * 4096 + (c1 - 0x80) * 64 + (c2 - 0x80)) :: cs)
        else none
      | _ => none
    else if b ≤ 0xf4 then
      match bs with
      | c1 :: c2 :: c3 :: bs4 =>
        let lo1 : Nat := if b = 0xf0 then 0x90 else 0x80
        let hi1 : Nat := if b = 0xf4 then 0x8f else 0xbf
        if lo1 ≤ c1 && c1 ≤ hi1 && utf8Cont c2 && utf8Cont c3 then
          (decodeUtf8Aux bs4).map
            (fun cs =>
              Char.ofNat
                ((b - 0xf0) * 262144 + (c1 - 0x80) * 4096 + (c2 - 0x80) * 64 +
                  (c3 - 0x80)) :: cs)
        else none
      | _ => none
    else none

/-- The UTF-8 bytes of an (ASCII, in all uses below) string literal. -/
def strBytes (s : String) : List Nat :=
  (s.data.flatMap (fun c => String.utf8EncodeChar c)).map UInt8.toNat

/-- Rust `str::split(sep)` for a one-character separator, on the character
list of a string: the (always non-empty) list of parts between separators. -/
def splitChar (sep : Char) : List Char → List (List Char)
  | [] => [[]]
  | c :: cs =>
    if c = sep then [] :: splitChar sep cs
    else
      match splitChar sep cs with
      | [] => [[c]]
      | p :: ps => (c :: p) :: ps

/-- `str::split` then `String::from` on each part, as used in catalog.rs. -/
def splitToStrings (sep : Char) (s : String) : List String :=
  (splitChar sep s.data).map String.mk

/-- The value of a run of ASCII digit characters. -/
def digitsToNat (ds : List Char) : Nat :=
  ds.foldl (fun a c => a * 10 + (c.toNat - 48)) 0

/-- Rust `usize::from_str`: optional `+` sign, then a non-empty all-digit run,
failing on overflow past `usize::MAX = 2^64 - 1` (64-bit target). -/
def rustParseUsize (s : String) : Option Nat :=
  let cs := match s.data with
    | '+' :: r => r
    | r => r
  if cs ≠ [] && cs.all Char.isDigit && digitsToNat cs < 2 ^ 64 then
    some (digitsToNat cs)
  else none

/-- Rust `i64::from_str`: optional sign, non-empty all-digit run, value within
`[-2^63, 2^63 - 1]`. -/
def rustParseI64 (s : String) : Option Int :=
  let (neg, cs) := match s.data with
    | '-' :: r => (true, r)
    | '+' :: r => (false, r)
    | r => (false, r)
  if cs ≠ [] && cs.all Char.isDigit then
    let n := digitsToNat cs
    if neg then
      if n ≤ 2 ^ 63 then some (-(n : Int)) else none
    else
      if n ≤ 2 ^ 63 - 1 then some (n : Int) else none
  else none

/-- Drop one leading `+`/`-` sign. -/
def dropSign : List Char → List Char
  | '+' :: r => r
  | '-' :: r => r
  | r => r

/-- The grammar accepted by Rust `f64::from_str`: optional sign, then either a
(case-insensitive) special `inf`/`infinity`/`nan`, or a decimal number with at
least one mantissa digit and an optional exponent with at least one digit.
Overflow/underflow never fail (they saturate to infinity/zero). -/
def f64Grammar (s : String) : Bool :=
  let cs := dropSign s.data
  let lower := cs.map Char.toLower
  if lower = "inf".data || lower = "infinity".data || lower = "nan".data then
    true
  else
    let intD := cs.takeWhile Char.isDigit
    let r := cs.dropWhile Char.isDigit
    let fracD := match r with
      | '.' :: t => t.takeWhile Char.isDigit
      | _ => []
    let r2 := match r with
      | '.' :: t => t.dropWhile Char.isDigit
      | _ => r
    if intD = [] && fracD = [] then false
    else
      match r2 with
      | [] => true
      | e :: t =>
        if e = 'e' || e = 'E' then
          let t2 := dropSign t
          decide (t2.takeWhile Char.isDigit ≠ []) && decide (t2.dropWhile Char.isDigit = [])
        else false

/-- The numeric value produced by Rust `f64::from_str` on an accepted literal
(best-effort binary64 value; no claim below inspects a non-null float value). -/
def f64Val (s : String) : Float :=
  let neg := match s.data with
    | '-' :: _ => true
    | _ => false
  let cs := dropSign s.data
  let lower := cs.map Char.toLower
  if lower = "inf".data || lower = "infinity".data then
    if neg then (-1.0) / 0.0 else 1.0 / 0.0
  else if lower = "nan".data then 0.0 / 0.0
  else
    let intD := cs.takeWhile Char.isDigit
    let r := cs.dropWhile Char.isDigit
    let fracD := match r with
      | '.' :: t => t.takeWhile Char.isDigit
      | _ => []
    let r2 := match r with
      | '.' :: t => t.dropWhile Char.isDigit
      | _ => r
    let expPart : Int := match r2 with
      | e :: t =>
        if e = 'e' || e = 'E' then
          match t with
          | '-' :: t2 => -(digitsToNat (t2.takeWhile Char.isDigit) : Int)
          | '+' :: t2 => (digitsToNat (t2.takeWhile Char.isDigit) : Int)
          | t2 => (digitsToNat (t2.takeWhile Char.isDigit) : Int)
        else 0
      | [] => 0
    let m := digitsToNat (intD ++ fracD)
    let e : Int := expPart - fracD.length
    let mag := if e < 0 then Float.ofScientific m true e.natAbs
               else Float.ofScientific m false e.natAbs
    if neg then -mag else mag

/-- Rust `f64::from_str` as a partial function. -/
def rustParseF64 (s : String) : Option Float :=
  if f64Grammar s then some (f64Val s) else none

/-- The error kinds of `error.rs` (`ErrorKind`). Only the payloads the decoder
actually distinguishes are modelled: the offending literal for the code-table,
numeric-parse and format-control errors, and the field name for `InvalidDDF`.
The `#[cause]` payloads (`Utf8Error`, `ParseIntError`, io errors) are not
carried; an error's identity here is the outermost kind that `Error::kind()`
would report. -/
inductive ErrorKind where
  | BadDataStructureCode (lit : String)
  | BadDataTypeCode (lit : String)
  | BadDirectoryData
  | BadTruncEscSeq (lit : String)
  | BadFieldControl
  | CouldNotParseCatalog
  | CouldNotParseName
  | EmptyFormatControls
  | InvalidDDR
  | InvalidDR
  | InvalidLeader
  | InvalidDDF (name : String)
  | InvalidDDFS
  | InvalidHeader
  | EOF
  | IOError
  | ParseIntError (lit : String)
  | ParseFloatError (lit : String)
  | UnParsableFormatControl (lit : String)
  | UtfError
  deriving DecidableEq, Repr

/-- `from_utf8` wrapped as in `parse_to_string`/`parse_to_usize`: an invalid
byte sequence is the `UtfError` kind. -/
def decodeUtf8 (b : List Nat) : Except ErrorKind String :=
  match decodeUtf8Aux b with
  | some cs => .ok (String.mk cs)
  | none => .error .UtfError

/-- `parse_to_string` (catalog.rs): UTF-8 decode of a byte slice. -/
def parse_to_string (b : List Nat) : Except ErrorKind String :=
  decodeUtf8 b

/-- `parse_to_usize` (catalog.rs): UTF-8 decode then `str::parse::<usize>`,
with the parse failure surfacing as the `ParseIntError` kind. -/
def parse_to_usize (b : List Nat) : Except ErrorKind Nat :=
  match decodeUtf8 b with
  | .error e => .error e
  | .ok s =>
    match rustParseUsize s with
    | some n => .ok n
    | none => .error (.ParseIntError s)

/-- `ParseType` (the data-parser source file). -/
inductive ParseType where
  | Integer
  | String
  | Float
  deriving DecidableEq, Repr

/-- `ParseData` (the data-parser source file): a subfield descriptor. -/
inductive ParseData where
  | Fixed (t : ParseType) (size : Nat)
  | Variable (t : ParseType)
  deriving DecidableEq, Repr

/-- `Data` (the data-parser source file): a decoded subfield value. `Float` carries a Lean
`Float` standing for Rust `f64`. -/
inductive Data where
  | Integer (v : Option Int)
  | String (s : String)
  | Float (v : Option Float)
  deriving Repr

/-- The type component of a descriptor (the `t` bound by the match in
`ParseData::parse`). -/
def ParseData.ptype : ParseData → ParseType
  | .Fixed t _ => t
  | .Variable t => t

/-- Digit-run to `usize` as done by `.parse().unwrap()` on a captured group in
`ParseData::from_str`: `none` (panic) on an empty run or on 64-bit overflow. -/
def parseCapturedUsize (ds : List Char) : Option Nat :=
  if ds ≠ [] && digitsToNat ds < 2 ^ 64 then some (digitsToNat ds) else none

/-- `ParseData::from_str` (the data-parser source file). The regex
`^(\d+)?([AIR])(\(\d*\))?` is modelled directly: an optional greedy leading
digit run, a mandatory type letter, and an optional parenthesized digit run
(possibly empty, per `\d*`); trailing unmatched characters are ignored because
the pattern is only anchored at the start. `none` models the two `unwrap`
panics: a repeat count past `usize::MAX` and an empty or overflowing width. -/
def ParseData.from_str (s : String) : Option (Except ErrorKind (Nat × ParseData)) :=
  let cs := s.data
  let ds := cs.takeWhile Char.isDigit
  match cs.dropWhile Char.isDigit with
  | c :: r2 =>
    if c = 'A' || c = 'I' || c = 'R' then
      let typ : ParseType := if c = 'A' then .String else if c = 'I' then .Integer else .Float
      let num? : Option Nat := if ds = [] then some 1 else parseCapturedUsize ds
      match num? with
      | none => none
      | some num =>
        match r2 with
        | '(' :: r3 =>
          let ws := r3.takeWhile Char.isDigit
          match r3.dropWhile Char.isDigit with
          | ')' :: _ =>
            match parseCapturedUsize ws with
            | none => none
            | some w => some (.ok (num, .Fixed typ w))
          | _ => some (.ok (num, .Variable typ))
        | _ => some (.ok (num, .Variable typ))
    else some (.error (.UnParsableFormatControl s))
  | [] => some (.error (.UnParsableFormatControl s))

/-- `BufRead::read_until(UNIT_SEPARATOR)`: the bytes read (including the
delimiter when found, everything to EOF otherwise) and the rest of the
reader. -/
def readUntilSep : List Nat → List Nat × List Nat
  | [] => ([], [])
  | b :: bs =>
    if b = UNIT_SEPARATOR then ([b], bs)
    else
      let (d, r) := readUntilSep bs
      (b :: d, r)

/-- The reading phase of `ParseData::parse` (the `match &self` block): returns
the raw bytes bound to `d` and the remaining reader. `Fixed` is `read_exact`
(an `IOError` when the source is too short); `Variable` is `read_until` then
dropping the final byte of what was read — `none` models the index underflow
panic of `&data[..data.len() - 1]` on an empty source. -/
def readSubfieldBytes (pd : ParseData) (src : List Nat) :
    Option (Except ErrorKind (List Nat × List Nat)) :=
  match pd with
  | .Fixed _ size =>
    if size ≤ src.length then some (.ok (src.take size, src.drop size))
    else some (.error .IOError)
  | .Variable _ =>
    match src with
    | [] => none
    | _ :: _ =>
      let (d, r) := readUntilSep src
      some (.ok (d.dropLast, r))

/-- The conversion phase of `ParseData::parse` (the `match t` block): type
conversion of the decoded text. -/
def convertSubfield (t : ParseType) (d : String) : Except ErrorKind Data :=
  match t with
  | .String => .ok (.String d)
  | .Integer =>
    if d = "" then .ok (.Integer none)
    else
      match rustParseI64 d with
      | some n => .ok (.Integer (some n))
      | none => .error (.ParseIntError d)
  | .Float =>
    if d = "" then .ok (.Float none)
    else
      match rustParseF64 d with
      | some v => .ok (.Float (some v))
      | none => .error (.ParseFloatError d)

/-- `ParseData::parse` (the data-parser source file): read the raw bytes per the
descriptor, UTF-8 decode them, convert per the descriptor's type. Returns the
decoded value together with the rest of the reader; `none` models a panic. -/
def ParseData.parse (pd : ParseData) (src : List Nat) :
    Option (Except ErrorKind (Data × List Nat)) :=
  match readSubfieldBytes pd src with
  | none => none
  | some (.error e) => some (.error e)
  | some (.ok (d, rest)) =>
    match decodeUtf8 d with
    | .error e => some (.error e)
    | .ok s =>
      match convertSubfield pd.ptype s with
      | .error e => some (.error e)
      | .ok v => some (.ok (v, rest))

/-- `Leader` (catalog.rs). -/
structure Leader where
  rl : Nat
  il : Char
  li : Char
  cei : Char
  vn : Char
  ai : Char
  fcl : Char × Char
  ba : Nat
  csi : Char × Char × Char
  flf : Nat
  fpf : Nat
  rsv : Char
  ftf : Nat
  deriving DecidableEq, Repr

/-- `DirectoryEntry` (catalog.rs). -/
structure DirectoryEntry where
  id : String
  length : Nat
  offset : Nat
  deriving DecidableEq, Repr

/-- `DataStructureCode` (catalog.rs). -/
inductive DataStructureCode where
  | SDI
  | LS
  | MDS
  deriving DecidableEq, Repr

/-- `DataStructureCode::from_str`. -/
def DataStructureCode.from_str (s : String) : Except ErrorKind DataStructureCode :=
  if s = "0" then .ok .SDI
  else if s = "1" then .ok .LS
  else if s = "2" then .ok .MDS
  else .error (.BadDataStructureCode s)

/-- `DataTypeCode` (catalog.rs). -/
inductive DataTypeCode where
  | CS
  | IP
  | EP
  | BF
  | MDT
  deriving DecidableEq, Repr

/-- `DataTypeCode::from_str`. -/
def DataTypeCode.from_str (s : String) : Except ErrorKind DataTypeCode :=
  if s = "0" then .ok .CS
  else if s = "1" then .ok .IP
  else if s = "2" then .ok .EP
  else if s = "5" then .ok .BF
  else if s = "6" then .ok .MDT
  else .error (.BadDataTypeCode s)

/-- `TruncEscSeq` (catalog.rs). -/
inductive TruncEscSeq where
  | LE0
  | LE1
  | LE2
  deriving DecidableEq, Repr

/-- `TruncEscSeq::from_str`. -/
def TruncEscSeq.from_str (s : String) : Except ErrorKind TruncEscSeq :=
  if s = "   " then .ok .LE0
  else if s = "-A " then .ok .LE1
  else if s = "%/A" then .ok .LE2
  else .error (.BadTruncEscSeq s)

/-- `FieldControls` (catalog.rs). -/
structure FieldControls where
  dsc : DataStructureCode
  dtc : DataTypeCode
  aux : String
  prt : String
  tes : TruncEscSeq
  deriving DecidableEq, Repr

/-- `DDFEntry` (catalog.rs). -/
structure DDFEntry where
  fic : FieldControls
  name : String
  foc : List (String × ParseData)
  deriving DecidableEq, Repr

/-- `DDR` (catalog.rs). -/
structure DDR where
  leader : Leader
  dirs : List DirectoryEntry
  data_descriptive_fields : List DDFEntry
  deriving DecidableEq, Repr

/-- `Catalog` (catalog.rs): the compiled DDR plus the remaining byte source. -/
structure Catalog where
  ddr : DDR
  rdr : List Nat
  deriving DecidableEq, Repr

/-- `parse_leader` (catalog.rs). The caller hands it a 19-byte slice (the
record-length digits were consumed earlier); indexing up to `byte[18]` panics
(`none`) on a shorter input. `ba` is truncated `as u32`. Text/number failures
are wrapped with `.context(InvalidLeader)`. -/
def parse_leader (byte : List Nat) (len : Nat) : Option (Except ErrorKind Leader) :=
  if byte.length < 19 then none
  else
    let ch := fun (i : Nat) => Char.ofNat (byte.getD i 0)
    match parse_to_usize ((byte.drop 7).take 5) with
    | .error _ => some (.error .InvalidLeader)
    | .ok ba =>
      match parse_to_usize ((byte.drop 15).take 1) with
      | .error _ => some (.error .InvalidLeader)
      | .ok flf =>
        match parse_to_usize ((byte.drop 16).take 1) with
        | .error _ => some (.error .InvalidLeader)
        | .ok fpf =>
          match parse_to_usize ((byte.drop 18).take 1) with
          | .error _ => some (.error .InvalidLeader)
          | .ok ftf =>
            some (.ok
              { rl := len
                il := ch 0
                li := ch 1
                cei := ch 2
                vn := ch 3
                ai := ch 4
                fcl := (ch 5, ch 6)
                ba := ba % 2 ^ 32
                csi := (ch 12, ch 13, ch 14)
                flf := flf
                fpf := fpf
                rsv := ch 17
                ftf := ftf })

/-- Fuel-driven worker for `listChunks`: each step takes one chunk off the
front. Fuel at least the list length is enough when the chunk size is
positive. -/
def listChunksGo (n : Nat) : Nat → List Nat → List (List Nat)
  | _, [] => []
  | 0, _ :: _ => []
  | fuel + 1, b :: bs =>
    (b :: bs).take n :: listChunksGo n fuel ((b :: bs).drop n)

/-- `slice::chunks` for a positive chunk size (the zero case, on which Rust
panics, is guarded at the call site). -/
def listChunks (n : Nat) (l : List Nat) : List (List Nat) :=
  listChunksGo n l.length l

/-- The per-chunk body of the `parse_directory` loop: slice the chunk at the
leader's entry-map widths and decode tag/length/offset. -/
def parse_directory_entry (leader : Leader) (d : List Nat) :
    Except ErrorKind DirectoryEntry :=
  match parse_to_string (d.take leader.ftf) with
  | .error e => .error e
  | .ok id =>
    match parse_to_usize ((d.drop leader.ftf).take leader.flf) with
    | .error e => .error e
    | .ok length =>
      match parse_to_usize (d.drop (leader.ftf + leader.flf)) with
      | .error e => .error e
      | .ok offset => .ok { id := id, length := length, offset := offset }

/-- The chunk loop of `parse_directory`: a short chunk is `BadDirectoryData`;
per-chunk decode failures propagate unwrapped. -/
def parse_directory_loop (leader : Leader) : List (List Nat) →
    Except ErrorKind (List DirectoryEntry)
  | [] => .ok []
  | d :: ds =>
    if d.length ≠ leader.ftf + leader.flf + leader.fpf then .error .BadDirectoryData
    else
      match parse_directory_entry leader d with
      | .error e => .error e
      | .ok entry =>
        match parse_directory_loop leader ds with
        | .error e => .error e
        | .ok rest => .ok (entry :: rest)

/-- `parse_directory` (catalog.rs). `none` models the `slice::chunks` panic on
a zero chunk size (all-zero entry-map widths). -/
def parse_directory (byte : List Nat) (leader : Leader) :
    Option (Except ErrorKind (List DirectoryEntry)) :=
  let chunksize := leader.ftf + leader.flf + leader.fpf
  if chunksize = 0 then none
  else some (parse_directory_loop leader (listChunks chunksize byte))

/-- `parse_field_controls` (catalog.rs). Always called on the 9-byte prefix of
a field body; `none` models the slice panics on inputs shorter than 6 bytes.
Code-table failures are wrapped with `.context(BadFieldControl)`; UTF-8
failures keep the `UtfError` kind. -/
def parse_field_controls (byte : List Nat) : Option (Except ErrorKind FieldControls) :=
  if byte.length < 6 then none
  else some (
    match decodeUtf8 (byte.take 1) with
    | .error e => .error e
    | .ok s0 =>
      match DataStructureCode.from_str s0 with
      | .error _ => .error .BadFieldControl
      | .ok dsc =>
        match decodeUtf8 ((byte.drop 1).take 1) with
        | .error e => .error e
        | .ok s1 =>
          match DataTypeCode.from_str s1 with
          | .error _ => .error .BadFieldControl
          | .ok dtc =>
            match parse_to_string ((byte.drop 2).take 2) with
            | .error e => .error e
            | .ok aux =>
              match parse_to_string ((byte.drop 4).take 2) with
              | .error e => .error e
              | .ok prt =>
                match decodeUtf8 (byte.drop 6) with
                | .error e => .error e
                | .ok s6 =>
                  match TruncEscSeq.from_str s6 with
                  | .error _ => .error .BadFieldControl
                  | .ok tes => .ok { dsc := dsc, dtc := dtc, aux := aux, prt := prt, tes := tes })

/-- `parse_array_descriptors` (catalog.rs): empty bytes become the synthetic
`"DRID"` name, otherwise the decoded text is split on `!`. -/
def parse_array_descriptors (byte : List Nat) : Except ErrorKind (List String) :=
  if byte = [] then .ok [String.mk ['D', 'R', 'I', 'D']]
  else
    match parse_to_string byte with
    | .error e => .error e
    | .ok s => .ok (splitToStrings '!' s)

/-- The `collect::<Result<Vec<_>>>` over `ParseData::from_str` applied to the
comma-separated tokens, in order, stopping at the first error (`none` when an
encountered token makes `from_str` panic). -/
def collect_format_controls : List String →
    Option (Except ErrorKind (List (Nat × ParseData)))
  | [] => some (.ok [])
  | t :: ts =>
    match ParseData.from_str t with
    | none => none
    | some (.error e) => some (.error e)
    | some (.ok p) =>
      match collect_format_controls ts with
      | none => none
      | some (.error e) => some (.error e)
      | some (.ok ps) => some (.ok (p :: ps))

/-- `parse_format_controls` (catalog.rs): strip the surrounding parentheses,
split on commas, parse each token, then expand each `(count, descriptor)` pair
into `count` consecutive copies of the descriptor, preserving order. -/
def parse_format_controls (byte : List Nat) : Option (Except ErrorKind (List ParseData)) :=
  if byte.length < 2 then some (.error .EmptyFormatControls)
  else
    match parse_to_string ((byte.drop 1).take (byte.length - 2)) with
    | .error e => some (.error e)
    | .ok s =>
      match collect_format_controls (splitToStrings ',' s) with
      | none => none
      | some (.error e) => some (.error e)
      | some (.ok ps) => some (.ok (ps.flatMap fun p => List.replicate p.1 p.2))

/-- Rust `slice::split` on the unit-separator byte: the list of parts between
separators (always non-empty; an empty slice yields one empty part). -/
def splitSep : List Nat → List (List Nat)
  | [] => [[]]
  | b :: bs =>
    if b = UNIT_SEPARATOR then [] :: splitSep bs
    else
      match splitSep bs with
      | [] => [[b]]
      | p :: ps => (b :: p) :: ps

/-- `parse_ddf` (catalog.rs). `none` models the `split_at(9)` panic when the
part before the first unit separator is shorter than 9 bytes. Sub-parse
failures after the name is known are wrapped with `.context(InvalidDDF(name))`;
a name that is not UTF-8 is `CouldNotParseName`. -/
def parse_ddf (byte : List Nat) : Option (Except ErrorKind DDFEntry) :=
  match splitSep byte with
  | [] => some (.error .InvalidHeader)
  | p0 :: parts =>
    if p0.length < 9 then none
    else
      match parse_to_string (p0.drop 9) with
      | .error _ => some (.error .CouldNotParseName)
      | .ok name =>
        match parse_field_controls (p0.take 9) with
        | none => none
        | some (.error _) => some (.error (.InvalidDDF name))
        | some (.ok fic) =>
          match parts.get? 0 with
          | none => some (.error (.InvalidDDF name))
          | some p1 =>
            match parse_array_descriptors p1 with
            | .error _ => some (.error (.InvalidDDF name))
            | .ok array_desc =>
              match parts.get? 1 with
              | none => some (.error (.InvalidDDF name))
              | some p2 =>
                match parse_format_controls p2 with
                | none => none
                | some (.error _) => some (.error (.InvalidDDF name))
                | some (.ok fmt_descs) =>
                  if array_desc.length = fmt_descs.length then
                    some (.ok { fic := fic, name := name, foc := array_desc.zip fmt_descs })
                  else some (.error (.InvalidDDF name))

/-- The loop body of `parse_ddfs`: slice `byte[offset .. offset+length-1]`
(`none` models the panics on an underflowing end index or an out-of-bounds
slice) and run `parse_ddf` with `.context(InvalidDDFS)`. -/
def parse_ddfs_loop (byte : List Nat) : List DirectoryEntry →
    Option (Except ErrorKind (List DDFEntry))
  | [] => some (.ok [])
  | dir :: ds =>
    if dir.offset + dir.length = 0 then none
    else
      let s := dir.offset
      let e := dir.offset + dir.length - 1
      if s > e || e > byte.length then none
      else
        match parse_ddf ((byte.drop s).take (e - s)) with
        | none => none
        | some (.error _) => some (.error .InvalidDDFS)
        | some (.ok entry) =>
          match parse_ddfs_loop byte ds with
          | none => none
          | some (.error er) => some (.error er)
          | some (.ok rest) => some (.ok (entry :: rest))

/-- `parse_ddfs` (catalog.rs): every directory entry but the first (the file
control field is skipped). -/
def parse_ddfs (byte : List Nat) (dirs : List DirectoryEntry) :
    Option (Except ErrorKind (List DDFEntry)) :=
  parse_ddfs_loop byte (dirs.drop 1)

/-- `Iterator::position` of the first record-separator byte. -/
def findRecordSep : List Nat → Option Nat
  | [] => none
  | b :: bs =>
    if b = RECORD_SEPARATOR then some 0
    else (findRecordSep bs).map (· + 1)

/-- `parse_ddr` (catalog.rs): leader (with `.context(InvalidDDR)`), then the
directory from the span between byte 19 and the first record separator (again
`InvalidDDR`), then the data descriptive fields from the rest (`InvalidDDR`).
A missing record separator is `BadDirectoryData`; `none` models the panic of
the slice `ddr_bytes[19..idx]` when the separator sits before index 19 (the
leader slice panic is inside `parse_leader`). -/
def parse_ddr (ddr_bytes : List Nat) (len : Nat) : Option (Except ErrorKind DDR) :=
  match parse_leader (ddr_bytes.take 19) len with
  | none => none
  | some (.error _) => some (.error .InvalidDDR)
  | some (.ok leader) =>
    match findRecordSep ddr_bytes with
    | none => some (.error .BadDirectoryData)
    | some idx =>
      if idx < 19 then none
      else
        match parse_directory ((ddr_bytes.drop 19).take (idx - 19)) leader with
        | none => none
        | some (.error _) => some (.error .InvalidDDR)
        | some (.ok dirs) =>
          match parse_ddfs (ddr_bytes.drop (idx + 1)) dirs with
          | none => none
          | some (.error _) => some (.error .InvalidDDR)
          | some (.ok ddfs) =>
            some (.ok { leader := leader, dirs := dirs, data_descriptive_fields := ddfs })

/-- `Catalog::new` (catalog.rs): read 5 bytes (an `IOError` kind if the source
is shorter), parse them as the DDR length (failure propagates *unwrapped*),
read `length - 5` more bytes (`none` models the abort when `length < 5`;
`IOError` when the source is too short), then `parse_ddr` wrapped with
`.context(CouldNotParseCatalog)`. -/
def Catalog.new (rdr : List Nat) : Option (Except ErrorKind Catalog) :=
  if rdr.length < 5 then some (.error .IOError)
  else
    match parse_to_usize (rdr.take 5) with
    | .error e => some (.error e)
    | .ok ddr_length =>
      if ddr_length < 5 then none
      else
        let rest := rdr.drop 5
        if rest.length < ddr_length - 5 then some (.error .IOError)
        else
          match parse_ddr (rest.take (ddr_length - 5)) ddr_length with
          | none => none
          | some (.error _) => some (.error .CouldNotParseCatalog)
          | some (.ok ddr) => some (.ok { ddr := ddr, rdr := rest.drop (ddr_length - 5) })

/-- The 24-byte leader decode as wired in `Catalog::new`/`parse_ddr`: the
first 5 bytes are the record length, the following 19 bytes feed
`parse_leader`. -/
def parse_leader_record (b24 : List Nat) : Option (Except ErrorKind Leader) :=
  match parse_to_usize (b24.take 5) with
  | .error e => some (.error e)
  | .ok len => parse_leader ((b24.drop 5).take 19) len

/-- A leader whose four entry-map digits are all `'0'` (the 19-byte tail
`"3LE1 0900058 ! 0000"`). -/
def zero_width_leader : Leader :=
  { rl := 241
    il := '3'
    li := 'L'
    cei := 'E'
    vn := '1'
    ai := ' '
    fcl := ('0', '9')
    ba := 58
    csi := (' ', '!', ' ')
    flf := 0
    fpf := 0
    rsv := '0'
    ftf := 0 }

/-- The leader used by the repository's own tests (`get_test_leader`). -/
def test_leader : Leader :=
  { rl := 241
    il := '3'
    li := 'L'
    cei := 'E'
    vn := '1'
    ai := ' '
    fcl := ('0', '9')
    ba := 58
    csi := (' ', '!', ' ')
    flf := 3
    fpf := 4
    rsv := '0'
    ftf := 4 }

/-! ## Helper lemmas -/

/-- The part before the first unit separator heads the `splitSep` output. -/
theorem splitSep_head (b : List Nat) :
    ∃ ps, splitSep b = (b.takeWhile (· != UNIT_SEPARATOR)) :: ps := by
  induction b with
  | nil => exact ⟨[], rfl⟩
  | cons a as ih =>
    by_cases h : a = UNIT_SEPARATOR
    · subst h
      refine ⟨splitSep as, ?_⟩
      simp [splitSep, List.takeWhile_cons]
    · obtain ⟨ps, hps⟩ := ih
      refine ⟨ps, ?_⟩
      simp [splitSep, h, hps, List.takeWhile_cons]

/-- `read_until` splits at the first unit separator, including it in what was
read. -/
theorem readUntilSep_append (pre post : List Nat) (h : UNIT_SEPARATOR ∉ pre) :
    readUntilSep (pre ++ UNIT_SEPARATOR :: post) = (pre ++ [UNIT_SEPARATOR], post) := by
  induction pre with
  | nil => simp [readUntilSep]
  | cons a as ih =>
    have ha : a ≠ UNIT_SEPARATOR := fun e => h (e ▸ List.mem_cons_self a as)
    have h' : UNIT_SEPARATOR ∉ as := fun m => h (List.mem_cons_of_mem _ m)
    simp [readUntilSep, ha, ih h']

/-- The reading phase of a variable-width decode on a source containing a
unit separator: the bytes before the first separator, with the separator
consumed. -/
theorem readSubfieldBytes_variable (t : ParseType) (pre post : List Nat)
    (h : UNIT_SEPARATOR ∉ pre) :
    readSubfieldBytes (.Variable t) (pre ++ UNIT_SEPARATOR :: post) =
      some (.ok (pre, post)) := by
  cases pre with
  | nil => simp [readSubfieldBytes, readUntilSep]
  | cons a as =>
    have hru := readUntilSep_append (a :: as) post h
    simp only [List.cons_append] at hru ⊢
    have hdl : (a :: (as ++ [UNIT_SEPARATOR])).dropLast = a :: as := by
      rw [show a :: (as ++ [UNIT_SEPARATOR]) = (a :: as) ++ [UNIT_SEPARATOR] from rfl,
        List.dropLast_concat]
    simp [readSubfieldBytes, hru, hdl]

/-- `listChunksGo` ignores the exact fuel once it covers the list length
(positive chunk size). -/
theorem listChunksGo_fuel (n : Nat) (hn : 0 < n) :
    ∀ (f f' : Nat) (l : List Nat), l.length ≤ f → l.length ≤ f' →
      listChunksGo n f l = listChunksGo n f' l := by
  intro f
  induction f with
  | zero =>
    intro f' l hf _
    have : l = [] := List.eq_nil_of_length_eq_zero (Nat.le_zero.mp hf)
    subst this
    cases f' <;> simp [listChunksGo]
  | succ fi ih =>
    intro f' l hf hf'
    cases l with
    | nil => cases f' <;> simp [listChunksGo]
    | cons b bs =>
      cases f' with
      | zero => simp at hf'
      | succ fi' =>
        simp only [listChunksGo]
        congr 1
        apply ih
        · rw [List.length_drop]
          simp only [List.length_cons] at hf ⊢
          omega
        · rw [List.length_drop]
          simp only [List.length_cons] at hf' ⊢
          omega

/-- Unfolding `listChunks` one chunk at a time (positive chunk size, non-empty
list). -/
theorem listChunks_cons (n : Nat) (hn : 0 < n) (l : List Nat) (hl : l ≠ []) :
    listChunks n l = l.take n :: listChunks n (l.drop n) := by
  cases l with
  | nil => exact absurd rfl hl
  | cons b bs =>
    show listChunksGo n (bs.length + 1) (b :: bs) = _
    simp only [listChunksGo]
    congr 1
    apply listChunksGo_fuel n hn
    · rw [List.length_drop]
      simp only [List.length_cons]
      omega
    · exact Nat.le_refl _


/-- One step of the directory chunk loop. -/
theorem parse_directory_loop_cons (l : Leader) (d : List Nat) (ds : List (List Nat)) :
    parse_directory_loop l (d :: ds) =
      if d.length ≠ l.ftf + l.flf + l.fpf then .error .BadDirectoryData
      else
        match parse_directory_entry l d with
        | .error e => .error e
        | .ok entry =>
          match parse_directory_loop l ds with
          | .error e => .error e
          | .ok rest => .ok (entry :: rest) := rfl

/-- When the span's length is not a multiple of the chunk size, the directory
loop always ends in an error (the short final chunk at the latest). -/
theorem parse_directory_loop_err (l : Leader)
    (hcs : 0 < l.ftf + l.flf + l.fpf) :
    ∀ (b : List Nat), b.length % (l.ftf + l.flf + l.fpf) ≠ 0 →
      ∃ e, parse_directory_loop l (listChunks (l.ftf + l.flf + l.fpf) b) = .error e := by
  suffices H : ∀ (N : Nat) (b : List Nat), b.length = N →
      b.length % (l.ftf + l.flf + l.fpf) ≠ 0 →
      ∃ e, parse_directory_loop l (listChunks (l.ftf + l.flf + l.fpf) b) = .error e by
    exact fun b hb => H b.length b rfl hb
  intro N
  induction N using Nat.strong_induction_on with
  | _ N ih =>
    intro b hN hmod
    set cs := l.ftf + l.flf + l.fpf with hcsdef
    have hne : b ≠ [] := by
      intro e
      subst e
      simp at hmod
    rcases Nat.lt_or_ge b.length cs with hlt | hge
    · rw [listChunks_cons cs hcs b hne]
      have hlen' : (b.take cs).length ≠ cs := by
        rw [List.length_take]
        omega
      exact ⟨.BadDirectoryData, by rw [parse_directory_loop_cons, if_pos hlen']⟩
    · rw [listChunks_cons cs hcs b hne]
      have hlen : ¬((b.take cs).length ≠ cs) := by
        rw [List.length_take]
        omega
      have hmod' : (b.drop cs).length % cs ≠ 0 := by
        rw [List.length_drop, ← Nat.mod_eq_sub_mod hge]
        exact hmod
      have hlt' : (b.drop cs).length < N := by
        rw [List.length_drop]
        omega
      obtain ⟨e, he⟩ := ih _ hlt' (b.drop cs) rfl hmod'
      cases hpe : parse_directory_entry l (b.take cs) with
      | error e2 =>
        exact ⟨e2, by rw [parse_directory_loop_cons, if_neg hlen, hpe]⟩
      | ok ent =>
        exact ⟨e, by rw [parse_directory_loop_cons, if_neg hlen, hpe, he]⟩

/-- When additionally every full chunk decodes, the error is exactly
`BadDirectoryData`, raised by the short final chunk. -/
theorem parse_directory_loop_bad (l : Leader)
    (hcs : 0 < l.ftf + l.flf + l.fpf) :
    ∀ (b : List Nat), b.length % (l.ftf + l.flf + l.fpf) ≠ 0 →
      (∀ d ∈ listChunks (l.ftf + l.flf + l.fpf) b,
        d.length = l.ftf + l.flf + l.fpf → ∃ ent, parse_directory_entry l d = .ok ent) →
      parse_directory_loop l (listChunks (l.ftf + l.flf + l.fpf) b) =
        .error .BadDirectoryData := by
  suffices H : ∀ (N : Nat) (b : List Nat), b.length = N →
      b.length % (l.ftf + l.flf + l.fpf) ≠ 0 →
      (∀ d ∈ listChunks (l.ftf + l.flf + l.fpf) b,
        d.length = l.ftf + l.flf + l.fpf → ∃ ent, parse_directory_entry l d = .ok ent) →
      parse_directory_loop l (listChunks (l.ftf + l.flf + l.fpf) b) =
        .error .BadDirectoryData by
    exact fun b hb hwf => H b.length b rfl hb hwf
  intro N
  induction N using Nat.strong_induction_on with
  | _ N ih =>
    intro b hN hmod hwf
    set cs := l.ftf + l.flf + l.fpf with hcsdef
    have hne : b ≠ [] := by
      intro e
      subst e
      simp at hmod
    rcases Nat.lt_or_ge b.length cs with hlt | hge
    · rw [listChunks_cons cs hcs b hne]
      have hlen' : (b.take cs).length ≠ cs := by
        rw [List.length_take]
        omega
      rw [parse_directory_loop_cons, if_pos hlen']
    · rw [listChunks_cons cs hcs b hne] at hwf ⊢
      have hlen : (b.take cs).length = cs := by
        rw [List.length_take]
        omega
      obtain ⟨ent, hent⟩ := hwf (b.take cs) (List.mem_cons_self _ _) hlen
      have hmod' : (b.drop cs).length % cs ≠ 0 := by
        rw [List.length_drop, ← Nat.mod_eq_sub_mod hge]
        exact hmod
      have hlt' : (b.drop cs).length < N := by
        rw [List.length_drop]
        omega
      have hrest := ih _ hlt' (b.drop cs) rfl hmod'
        (fun d hd hdl => hwf d (List.mem_cons_of_mem _ hd) hdl)
      rw [parse_directory_loop_cons, if_neg (by rw [hlen]; exact fun hx => hx rfl), hent,
        hrest]

/-! ## Claims -/

/-- C1: the format-control grammar on `"(A(2),2I(10),2R)"` returns exactly
`[Fixed(String,2), Fixed(Integer,10), Fixed(Integer,10), Variable(Float),
Variable(Float)]`: each token's repeat count is expanded into that many
consecutive identical descriptors, preserving input order. -/
theorem c1_format_control_expansion :
    parse_format_controls (strBytes "(A(2),2I(10),2R)") =
      some (.ok [.Fixed .String 2, .Fixed .Integer 10, .Fixed .Integer 10,
        .Variable .Float, .Variable .Float]) := rfl

/-- C2: for numeric descriptors, `ParseData::parse` decodes an empty text to
the null variant of the numeric type (not zero, not an error), fails with
`ParseIntError`/`ParseFloatError` carrying the offending literal on a
non-empty unparsable text, and decodes the fixed-width integer literal
`"00001"` at width 5 to the integer 1. -/
theorem c2_numeric_subfield_conversion :
    (∀ (pd : ParseData) (src d rest : List Nat), pd.ptype = .Integer →
      readSubfieldBytes pd src = some (.ok (d, rest)) → decodeUtf8 d = .ok "" →
      ParseData.parse pd src = some (.ok (.Integer none, rest))) ∧
    (∀ (pd : ParseData) (src d rest : List Nat), pd.ptype = .Float →
      readSubfieldBytes pd src = some (.ok (d, rest)) → decodeUtf8 d = .ok "" →
      ParseData.parse pd src = some (.ok (.Float none, rest))) ∧
    (∀ (pd : ParseData) (src d rest : List Nat) (s : String), pd.ptype = .Integer →
      readSubfieldBytes pd src = some (.ok (d, rest)) → decodeUtf8 d = .ok s →
      s ≠ "" → rustParseI64 s = none →
      ParseData.parse pd src = some (.error (.ParseIntError s))) ∧
    (∀ (pd : ParseData) (src d rest : List Nat) (s : String), pd.ptype = .Float →
      readSubfieldBytes pd src = some (.ok (d, rest)) → decodeUtf8 d = .ok s →
      s ≠ "" → rustParseF64 s = none →
      ParseData.parse pd src = some (.error (.ParseFloatError s))) ∧
    ParseData.parse (.Fixed .Integer 5) (strBytes "00001") =
      some (.ok (.Integer (some 1), [])) := by
  refine ⟨?_, ?_, ?_, ?_, rfl⟩
  · intro pd src d rest hty hread hdec
    simp [ParseData.parse, hread, hdec, hty, convertSubfield]
  · intro pd src d rest hty hread hdec
    simp [ParseData.parse, hread, hdec, hty, convertSubfield]
  · intro pd src d rest s hty hread hdec hs hpi
    simp [ParseData.parse, hread, hdec, hty, convertSubfield, hs, hpi]
  · intro pd src d rest s hty hread hdec hs hpf
    simp [ParseData.parse, hread, hdec, hty, convertSubfield, hs, hpf]

/-- C2 witness: the four quantified conjuncts of
`c2_numeric_subfield_conversion` at concrete inputs, with their hypotheses
discharged there. -/
theorem c2_numeric_subfield_conversion_witness :
    decodeUtf8 [] = .ok "" ∧ rustParseI64 "x" = none ∧ rustParseF64 "x" = none ∧
    ParseData.parse (.Variable .Integer) [UNIT_SEPARATOR] =
      some (.ok (.Integer none, [])) ∧
    ParseData.parse (.Variable .Float) [UNIT_SEPARATOR] =
      some (.ok (.Float none, [])) ∧
    ParseData.parse (.Fixed .Integer 1) (strBytes "x") =
      some (.error (.ParseIntError "x")) ∧
    ParseData.parse (.Fixed .Float 1) (strBytes "x") =
      some (.error (.ParseFloatError "x")) :=
  ⟨rfl, rfl, rfl,
    c2_numeric_subfield_conversion.1 _ _ [] [] rfl rfl rfl,
    c2_numeric_subfield_conversion.2.1 _ _ [] [] rfl rfl rfl,
    c2_numeric_subfield_conversion.2.2.1 _ _ [120] [] "x" rfl rfl rfl
      (by decide) rfl,
    c2_numeric_subfield_conversion.2.2.2.1 _ _ [120] [] "x" rfl rfl rfl
      (by decide) rfl⟩

/-- C3 counterexample: on the source `[65, 66]` ("AB"), which contains no
unit-separator byte, the variable-width decode succeeds with text `"A"` —
the consumed-and-discarded trailing byte is `66`, a payload byte and not a
unit separator, so the claim's universally quantified reading of
`ParseData::parse` is false. -/
theorem c3_variable_decode_counterexample :
    ParseData.parse (.Variable .String) [65, 66] = some (.ok (.String "A", [])) ∧
    UNIT_SEPARATOR ∉ ([65, 66] : List Nat) :=
  ⟨rfl, by decide⟩

/-- C3 (amended): for every byte source *containing* a unit-separator byte,
the variable-width decode reads exactly the bytes before the first separator,
consumes and discards that one separator (never part of the decoded text),
and leaves exactly the bytes after it in the reader. -/
theorem c3_variable_decode_separator (t : ParseType) (pre post : List Nat)
    (h : UNIT_SEPARATOR ∉ pre) :
    ParseData.parse (.Variable t) (pre ++ UNIT_SEPARATOR :: post) =
      some (match decodeUtf8 pre with
        | .error e => .error e
        | .ok s =>
          match convertSubfield t s with
          | .error e => .error e
          | .ok v => .ok (v, post)) := by
  have hread := readSubfieldBytes_variable t pre post h
  cases hd : decodeUtf8 pre with
  | error e => simp [ParseData.parse, hread, hd]
  | ok s =>
    cases hc : convertSubfield t s with
    | error e => simp [ParseData.parse, hread, hd, ParseData.ptype, hc]
    | ok v => simp [ParseData.parse, hread, hd, ParseData.ptype, hc]

/-- C3 witness: `c3_variable_decode_separator` at the source
`[72, 0x1F, 33]`. -/
theorem c3_variable_decode_separator_witness :
    UNIT_SEPARATOR ∉ ([72] : List Nat) ∧
    ParseData.parse (.Variable .String) ([72] ++ UNIT_SEPARATOR :: [33]) =
      some (.ok (.String "H", [33])) :=
  ⟨by decide, (c3_variable_decode_separator .String [72] [33] (by decide)).trans rfl⟩

/-- C4 counterexample: a 12-byte span (not a multiple of the chunk width 11)
whose first, full chunk carries a non-numeric length field makes
`parse_directory` fail with `ParseIntError`, not `BadDirectoryData`. -/
theorem c4_directory_misaligned_counterexample :
    (strBytes "AAAABBBCCCCX").length %
        (test_leader.ftf + test_leader.flf + test_leader.fpf) ≠ 0 ∧
    parse_directory (strBytes "AAAABBBCCCCX") test_leader =
      some (.error (.ParseIntError "BBB")) ∧
    ErrorKind.ParseIntError "BBB" ≠ .BadDirectoryData :=
  ⟨by decide, rfl, by decide⟩

/-- C4 (amended): for strictly positive entry-map widths, a span whose length
is not an exact multiple of the chunk size always makes `parse_directory`
fail — with `BadDirectoryData` when every full chunk decodes (an earlier
malformed full chunk may surface its own parse error instead); and the
leader-declared slicing on the test literal yields exactly the three expected
entries. -/
theorem c4_directory_alignment :
    (∀ (b : List Nat) (l : Leader), 0 < l.flf → 0 < l.fpf → 0 < l.ftf →
      b.length % (l.ftf + l.flf + l.fpf) ≠ 0 →
      (∃ e, parse_directory b l = some (.error e)) ∧
      ((∀ d ∈ listChunks (l.ftf + l.flf + l.fpf) b,
          d.length = l.ftf + l.flf + l.fpf →
          ∃ ent, parse_directory_entry l d = .ok ent) →
        parse_directory b l = some (.error .BadDirectoryData))) ∧
    parse_directory (strBytes "0000019000000010440019CATD1200063") test_leader =
      some (.ok [{ id := "0000", length := 19, offset := 0 },
        { id := "0001", length := 44, offset := 19 },
        { id := "CATD", length := 120, offset := 63 }]) := by
  refine ⟨?_, rfl⟩
  intro b l h1 h2 h3 hmod
  have hne : ¬ (l.ftf + l.flf + l.fpf = 0) := by omega
  have hcs : 0 < l.ftf + l.flf + l.fpf := by omega
  constructor
  · obtain ⟨e, he⟩ := parse_directory_loop_err l hcs b hmod
    exact ⟨e, by simp [parse_directory, hne, he]⟩
  · intro hwf
    have hbad := parse_directory_loop_bad l hcs b hmod hwf
    simp [parse_directory, hne, hbad]

/-- C4 witness: `c4_directory_alignment` on the 2-byte span `"AB"` under the
test leader (chunk width 11). -/
theorem c4_directory_alignment_witness :
    (strBytes "AB").length % (test_leader.ftf + test_leader.flf + test_leader.fpf) ≠ 0 ∧
    parse_directory (strBytes "AB") test_leader = some (.error .BadDirectoryData) := by
  constructor
  · decide
  · refine (c4_directory_alignment.1 (strBytes "AB") test_leader (by decide) (by decide)
      (by decide) (by decide)).2 ?_
    intro d hd hdl
    rw [show listChunks (test_leader.ftf + test_leader.flf + test_leader.fpf)
        (strBytes "AB") = [[65, 66]] from rfl] at hd
    simp at hd
    subst hd
    exact absurd hdl (by decide)

/-- C5: once a data descriptive field's parts are split and its name, field
controls, array descriptors and expanded format controls are all obtained,
`parse_ddf` fails with `InvalidDDF name` exactly when the descriptor counts
differ (never truncating or padding), and zips names with descriptors
positionally when they agree. -/
theorem c5_ddf_count_invariant (b p0 : List Nat) (ps : List (List Nat))
    (name : String) (fic : FieldControls) (p1 p2 : List Nat)
    (ad : List String) (fd : List ParseData)
    (hsplit : splitSep b = p0 :: ps) (hlen : 9 ≤ p0.length)
    (hname : parse_to_string (p0.drop 9) = .ok name)
    (hfic : parse_field_controls (p0.take 9) = some (.ok fic))
    (hp1 : ps.get? 0 = some p1) (had : parse_array_descriptors p1 = .ok ad)
    (hp2 : ps.get? 1 = some p2) (hfd : parse_format_controls p2 = some (.ok fd)) :
    (ad.length ≠ fd.length → parse_ddf b = some (.error (.InvalidDDF name))) ∧
    (ad.length = fd.length →
      parse_ddf b = some (.ok { fic := fic, name := name, foc := ad.zip fd })) := by
  have h9 : ¬ p0.length < 9 := Nat.not_lt.mpr hlen
  constructor
  · intro hne
    simp only [parse_ddf, hsplit, h9, if_false, hname, hfic, hp1, had, hp2, hfd,
      hne, ite_false]
  · intro heq
    simp only [parse_ddf, hsplit, h9, if_false, hname, hfic, hp1, had, hp2, hfd,
      heq, ite_true]

/-- C5 witness: `c5_ddf_count_invariant` on a field body with two array
descriptors and one expanded format descriptor. -/
theorem c5_ddf_count_invariant_witness :
    (["A", "B"] : List String).length ≠ ([ParseData.Fixed .String 2]).length ∧
    parse_ddf ((strBytes "1600;&-A NM") ++
        UNIT_SEPARATOR :: ((strBytes "A!B") ++ UNIT_SEPARATOR :: (strBytes "(A(2))"))) =
      some (.error (.InvalidDDF "NM")) := by
  constructor
  · decide
  · exact (c5_ddf_count_invariant
      ((strBytes "1600;&-A NM") ++
        UNIT_SEPARATOR :: ((strBytes "A!B") ++ UNIT_SEPARATOR :: (strBytes "(A(2))")))
      (strBytes "1600;&-A NM")
      [strBytes "A!B", strBytes "(A(2))"] "NM"
      { dsc := .LS, dtc := .MDT, aux := "00", prt := ";&", tes := .LE1 }
      (strBytes "A!B") (strBytes "(A(2))") ["A", "B"] [.Fixed .String 2]
      rfl (by decide) rfl rfl rfl rfl rfl rfl).1 (by decide)

/-- C6: decoding the 24-byte leader literal `"002413LE1 0900058 ! 3404"`
succeeds with record length 241, base address 58, and entry-map widths
flf=3, fpf=4, rsv='0', ftf=4. -/
theorem c6_leader_decode :
    parse_leader_record (strBytes "002413LE1 0900058 ! 3404") =
      some (.ok test_leader) := rfl

/-- C7 counterexample: a source whose first 5 bytes are `"XXXXX"` makes
`Catalog::new` fail with the unwrapped `ParseIntError` kind — neither
`CouldNotParseCatalog` nor `InvalidDDR`. -/
theorem c7_catalog_open_counterexample :
    Catalog.new (strBytes "XXXXX") = some (.error (.ParseIntError "XXXXX")) ∧
    ErrorKind.ParseIntError "XXXXX" ≠ .CouldNotParseCatalog ∧
    ErrorKind.ParseIntError "XXXXX" ≠ .InvalidDDR :=
  ⟨rfl, by decide, by decide⟩

/-- C7 (amended): in `Catalog::new`, failures of the leader/directory/schema
phase (`parse_ddr`) are fatal and wrapped as `CouldNotParseCatalog` (with
`InvalidDDR` beneath in the chain), but read failures surface as `IOError`
and a malformed 5-byte length propagates its own `ParseIntError`/`UtfError`
unwrapped. -/
theorem c7_catalog_open_error_wrapping :
    (∀ rdr : List Nat, rdr.length < 5 → Catalog.new rdr = some (.error .IOError)) ∧
    (∀ (rdr : List Nat) (e : ErrorKind), 5 ≤ rdr.length →
      parse_to_usize (rdr.take 5) = .error e → Catalog.new rdr = some (.error e)) ∧
    (∀ (rdr : List Nat) (n : Nat), 5 ≤ rdr.length →
      parse_to_usize (rdr.take 5) = .ok n → 5 ≤ n → (rdr.drop 5).length < n - 5 →
      Catalog.new rdr = some (.error .IOError)) ∧
    (∀ (rdr : List Nat) (n : Nat) (e : ErrorKind), 5 ≤ rdr.length →
      parse_to_usize (rdr.take 5) = .ok n → 5 ≤ n → n - 5 ≤ (rdr.drop 5).length →
      parse_ddr ((rdr.drop 5).take (n - 5)) n = some (.error e) →
      Catalog.new rdr = some (.error .CouldNotParseCatalog)) := by
  refine ⟨?_, ?_, ?_, ?_⟩
  · intro rdr h
    simp [Catalog.new, h]
  · intro rdr e h hp
    have hA : ¬ (rdr.length < 5) := Nat.not_lt.mpr h
    simp [Catalog.new, hA, hp]
  · intro rdr n h hp h5 hshort
    have hA : ¬ (rdr.length < 5) := Nat.not_lt.mpr h
    have hB : ¬ (n < 5) := Nat.not_lt.mpr h5
    rw [List.length_drop] at hshort
    simp [Catalog.new, hA, hp, hB, hshort]
  · intro rdr n e h hp h5 hge hddr
    have hA : ¬ (rdr.length < 5) := Nat.not_lt.mpr h
    have hB : ¬ (n < 5) := Nat.not_lt.mpr h5
    have hC : ¬ ((rdr.drop 5).length < n - 5) := Nat.not_lt.mpr hge
    rw [List.length_drop] at hC
    simp [Catalog.new, hA, hp, hB, hC, hddr]

/-- C7 witness: `c7_catalog_open_error_wrapping` on an empty source (short
read) and on a 25-byte source whose DDR has no record separator. -/
theorem c7_catalog_open_error_wrapping_witness :
    Catalog.new [] = some (.error .IOError) ∧
    Catalog.new (strBytes "000253LE1 0900058 ! 3404X") =
      some (.error .CouldNotParseCatalog) :=
  ⟨c7_catalog_open_error_wrapping.1 [] (by decide),
    c7_catalog_open_error_wrapping.2.2.2 (strBytes "000253LE1 0900058 ! 3404X") 25
      .BadDirectoryData (by decide) rfl (by decide) (by decide) rfl⟩

/-- C8: when the bytes before the first unit separator number fewer than 9,
`parse_ddf` panics (the out-of-bounds `split_at(9)`, modelled as `none`)
instead of returning a decode error. -/
theorem c8_short_header_panics (b : List Nat)
    (h : (b.takeWhile (· != UNIT_SEPARATOR)).length < 9) :
    parse_ddf b = none := by
  obtain ⟨ps, hps⟩ := splitSep_head b
  simp only [parse_ddf, hps, h, ite_true]

/-- C8 witness: `c8_short_header_panics` on the empty field body. -/
theorem c8_short_header_panics_witness :
    ((([] : List Nat).takeWhile (· != UNIT_SEPARATOR)).length < 9) ∧
    parse_ddf [] = none :=
  ⟨by decide, c8_short_header_panics [] (by decide)⟩

/-- C9: `parse_leader` never validates the entry-map widths — it accepts a
19-byte leader tail whose four entry-map digits are all `'0'` — and for any
leader with all-zero widths, `parse_directory` panics (`slice::chunks` with
chunk size 0, modelled as `none`) on any non-empty span instead of returning
an error. -/
theorem c9_zero_width_directory_panics :
    parse_leader (strBytes "3LE1 0900058 ! 0000") 241 = some (.ok zero_width_leader) ∧
    (∀ (b : List Nat) (l : Leader), l.flf = 0 → l.fpf = 0 → l.ftf = 0 → b ≠ [] →
      parse_directory b l = none) := by
  refine ⟨rfl, ?_⟩
  intro b l h1 h2 h3 _
  simp [parse_directory, h1, h2, h3]

/-- C9 witness: `c9_zero_width_directory_panics` on the non-empty span `[65]`
with an all-zero-width leader. -/
theorem c9_zero_width_directory_panics_witness :
    ([65] : List Nat) ≠ [] ∧
    parse_directory [65] zero_width_leader = none :=
  ⟨by decide, c9_zero_width_directory_panics.2 [65] zero_width_leader rfl rfl rfl (by decide)⟩

/-- C10: two tokens that match the format-control regex still make
`ParseData::from_str` panic (modelled as `none`) instead of returning
`UnParsableFormatControl`: an empty parenthesized width `"A()"` (the width
`unwrap`), and a repeat count past the `usize` range (the count `unwrap`). -/
theorem c10_format_token_panics :
    ParseData.from_str "A()" = none ∧
    ParseData.from_str "18446744073709551616I" = none :=
  ⟨rfl, rfl⟩

end Iso8211
